import Mathlib

/-!
Shallow embedding of the BizTrack AI service core (`ai_service/forecaster.py`
and `ai_service/main.py`).

Modelling conventions:
* Python floats are embedded as exact rationals (`ℚ`); the float literals
  `1e-6`, `0.3`, `0.4` become the exact rationals `1/1000000`, `3/10`, `2/5`.
* Calendar dates are embedded as integer day numbers (`Int`), so the pandas
  timestamp difference `(max - min).days` becomes integer subtraction.
* `round(x, 2)` and the `:.1f` format specifier round half-to-even, as Python
  does on the true value.
* The Prophet library is an external collaborator (the spec treats it as the
  opaque capability `fit/predict`); it is embedded as an oracle parameter
  `fp : FitPredict` supplying one `(yhat, yhat_lower, yhat_upper)` triple per
  requested date, with `make_future_dataframe` producing the history dates
  followed by `days` consecutive dates after the last historical date.
  Prophet's documented refusal to fit fewer than 2 rows is the
  insufficient-data error; an out-of-range `iloc` is the index error.
-/

/-- Round half-to-even to the nearest integer, as Python `round` does. -/
def roundHalfEven (q : ℚ) : ℤ :=
  let f : ℤ := q.floor
  let r : ℚ := q - f
  if r < 1/2 then f
  else if 1/2 < r then f + 1
  else if f % 2 = 0 then f else f + 1

/-- Python `round(x, 2)`. -/
def round2 (q : ℚ) : ℚ := (roundHalfEven (q * 100) : ℚ) / 100

/-- Python `f"{x:.1f}"`: decimal string with one fractional digit. -/
def fmt1 (q : ℚ) : String :=
  let n : ℤ := roundHalfEven (q * 10)
  let s : String := if n < 0 then "-" else ""
  let m : ℕ := n.natAbs
  s ++ toString (m / 10) ++ "." ++ toString (m % 10)

/-- `forecaster.py` lines 35-37 and 44: the trend formula
`((last_yhat - first_yhat) / (first_yhat + 1e-6)) * 100`, rounded to two
decimal places at the point the result dictionary is built. -/
def trendCalc (first_yhat last_yhat : ℚ) : ℚ :=
  round2 (((last_yhat - first_yhat) / (first_yhat + 1/1000000)) * 100)

/-- One row of the `['ds', 'y']` dataframe handed to `forecast`. -/
structure HistRow where
  ds : Int
  y : ℚ
deriving DecidableEq

/-- The three seasonality flags passed to the `Prophet` constructor. -/
structure SeasonalityConfig where
  daily_seasonality : Bool
  weekly_seasonality : Bool
  yearly_seasonality : Bool
deriving DecidableEq

/-- One row of the dataframe returned by `m.predict`. -/
structure ForecastRow where
  ds : Int
  yhat : ℚ
  yhat_lower : ℚ
  yhat_upper : ℚ
deriving DecidableEq

instance : Inhabited ForecastRow := ⟨⟨0, 0, 0, 0⟩⟩

/-- The opaque fitted-model capability: from the constructor flags and the
fitted history, a prediction triple `(yhat, yhat_lower, yhat_upper)` for any
requested date. -/
def FitPredict : Type := SeasonalityConfig → List HistRow → Int → ℚ × ℚ × ℚ

/-- `historical_data['ds'].max()` (0 for an empty frame, never consulted). -/
def dsMax : List HistRow → Int
  | [] => 0
  | h :: t => t.foldl (fun a r => max a r.ds) h.ds

/-- `historical_data['ds'].min()`. -/
def dsMin : List HistRow → Int
  | [] => 0
  | h :: t => t.foldl (fun a r => min a r.ds) h.ds

/-- `forecaster.py` line 18: `(historical_data['ds'].max() - historical_data['ds'].min()).days`. -/
def dataSpanDays (hist : List HistRow) : Int := dsMax hist - dsMin hist

/-- `forecaster.py` lines 19-26: yearly seasonality iff the span exceeds 365
days; daily always off, weekly always on. -/
def seasonalityConfig (hist : List HistRow) : SeasonalityConfig :=
  { daily_seasonality := false
    weekly_seasonality := true
    yearly_seasonality := decide (dataSpanDays hist > 365) }

/-- `m.make_future_dataframe(periods=days)`: the historical dates followed by
`days` consecutive dates after the last historical date. -/
def makeFuture (hist : List HistRow) (days : ℕ) : List Int :=
  hist.map (·.ds) ++ (List.range days).map (fun (i : ℕ) => dsMax hist + (i : Int) + 1)

/-- `forecast = m.predict(future)`: the combined history-plus-future output of
the delegated model. -/
def combinedForecast (fp : FitPredict) (hist : List HistRow) (days : ℕ) :
    List ForecastRow :=
  let cfg := seasonalityConfig hist
  (makeFuture hist days).map (fun d =>
    let p := fp cfg hist d
    ⟨d, p.1, p.2.1, p.2.2⟩)

/-- The error conditions the Python code can raise out of `forecast`:
Prophet's refusal to fit fewer than 2 rows, and an out-of-range `iloc`. -/
inductive ForecastError where
  | insufficientData
  | indexError
deriving DecidableEq

/-- The dictionary returned by `CashFlowForecaster.forecast` (and by the
fallback generator). -/
structure ForecastResult where
  predictions : List ForecastRow
  trend_percentage : ℚ
  seasonality_mode : String
deriving DecidableEq

/-- `forecaster.py` lines 13-46: `CashFlowForecaster.forecast`.  Fit errors
propagate to the caller as exceptions, embedded as `Except.error`. -/
def forecast (fp : FitPredict) (hist : List HistRow) (days : ℕ) :
    Except ForecastError ForecastResult :=
  if hist.length < 2 then .error .insufficientData
  else
    let fc := combinedForecast fp hist days
    if hist.length < fc.length then
      let first_yhat := (fc.getD hist.length default).yhat
      let last_yhat := (fc.getLastD default).yhat
      .ok { predictions := fc.drop (fc.length - days)
            trend_percentage := trendCalc first_yhat last_yhat
            seasonality_mode :=
              if (seasonalityConfig hist).yearly_seasonality then "yearly" else "weekly" }
    else .error .indexError

/-- `forecaster.py` lines 48-66: `CashFlowForecaster._generate_fallback_forecast`.
`now` is the day number of `datetime.now()`; the generated dates are the `days`
consecutive days after it. -/
def generate_fallback_forecast (now : Int) (days : ℕ) : ForecastResult :=
  { predictions :=
      (List.range days).map
        (fun (i : ℕ) => ⟨now + (i : Int) + 1, 1000, 800, 1200⟩)
    trend_percentage := 0
    seasonality_mode := "fallback" }

/-- `main.py` lines 36-40: the `Transaction` pydantic model (`description` and
`vendor` optional). -/
structure Transaction where
  description : Option String
  amount : ℚ
  date : Int
  vendor : Option String
deriving DecidableEq

/-- `main.py` lines 45-49: the `ForecastRequest` pydantic model. -/
structure ForecastRequest where
  business_id : String
  income_history : List Transaction
  expense_history : List Transaction
  days : ℕ := 30
deriving DecidableEq

/-- The JSON payload returned by the `/predict/forecast` handler: the success
shape of `main.py` lines 128-136, or the error shape of line 139. -/
inductive ForecastResponse where
  | success (business_id : String) (income_forecast : List ForecastRow)
      (income_trend : ℚ) (expense_forecast : List ForecastRow)
      (expense_trend : ℚ) (seasonality : String) (message : String)
  | failure (error : String) (message : String)
deriving DecidableEq

/-- `str(e)` for each embedded exception. -/
def errorString : ForecastError → String
  | .insufficientData => "Dataframe has less than 2 non-NaN rows."
  | .indexError => "single positional indexer is out-of-bounds"

/-- `main.py` lines 111-114 / 120-123: build the `['ds', 'y']` frame from a
transaction list (`date` renamed to `ds`, `amount` to `y`). -/
def toHistRows (ts : List Transaction) : List HistRow :=
  ts.map (fun t => ⟨t.date, t.amount⟩)

/-- `main.py` lines 112-117 (and 121-126): one stream of `predict_forecast` —
the empty-frame short circuit, else delegation to `forecaster.forecast`. -/
def streamResult (fp : FitPredict) (ts : List Transaction) (days : ℕ) :
    Except ForecastError ForecastResult :=
  if ts.isEmpty then .ok ⟨[], 0, "none"⟩
  else forecast fp (toHistRows ts) days

/-- `main.py` lines 104-139: the `/predict/forecast` handler.  The income
stream is processed first, so an exception there short-circuits the expense
stream; any exception is caught and converted to the error payload. -/
def predict_forecast (fp : FitPredict) (req : ForecastRequest) : ForecastResponse :=
  match streamResult fp req.income_history req.days with
  | .error e => .failure (errorString e) "Failed to generate forecast"
  | .ok income_res =>
    match streamResult fp req.expense_history req.days with
    | .error e => .failure (errorString e) "Failed to generate forecast"
    | .ok expense_res =>
      .success req.business_id income_res.predictions income_res.trend_percentage
        expense_res.predictions expense_res.trend_percentage
        income_res.seasonality_mode "Advanced forecast generated successfully"

/-- Python `str.lower()` on the description text (character-wise lowering of
the code points; the keyword scan only involves ASCII). -/
def lowerChars (s : String) : List Char := s.data.map Char.toLower

/-- Python substring membership `needle in hay`. -/
def strContains (hay : List Char) (needle : String) : Bool :=
  (List.range (hay.length + 1)).any (fun i => needle.data.isPrefixOf (hay.drop i))

/-- `main.py` lines 69-76: the heuristic category of one description — the
lowercased text is scanned by the keyword chains in source order, first match
wins, default `"other"`. -/
def heuristicCategory (desc : String) : String :=
  let d := lowerChars desc
  if (["rent", "lease", "office"]).any (fun w => strContains d w) then "rent"
  else if (["salary", "wage", "pay", "staff"]).any (fun w => strContains d w) then "salaries"
  else if (["stock", "inventory", "buy", "purchase"]).any (fun w => strContains d w) then "stock"
  else if (["uber", "fuel", "transport", "taxi"]).any (fun w => strContains d w) then "transport"
  else if (["electric", "water", "bill", "power"]).any (fun w => strContains d w) then "utilities"
  else if (["ad", "marketing", "facebook", "google", "promo"]).any (fun w => strContains d w) then "marketing"
  else "other"

/-- The keyword rules of `main.py` lines 71-76, as ordered configuration data
(the spec's enumeration of CategoryResolver's rule table). -/
def keywordRules : List (String × List String) :=
  [("rent", ["rent", "lease", "office"]),
   ("salaries", ["salary", "wage", "pay", "staff"]),
   ("stock", ["stock", "inventory", "buy", "purchase"]),
   ("transport", ["uber", "fuel", "transport", "taxi"]),
   ("utilities", ["electric", "water", "bill", "power"]),
   ("marketing", ["ad", "marketing", "facebook", "google", "promo"])]

/-- Declarative first-matching-rule semantics over a rule table (the spec's
description of the heuristic variant of CategoryResolver). -/
def firstMatchCategory : List (String × List String) → String → String
  | [], _ => "other"
  | (c, ws) :: rest, desc =>
    if ws.any (fun w => strContains (lowerChars desc) w) then c
    else firstMatchCategory rest desc

/-- One element of the `results` list built by `predict_category`. -/
structure CategoryResult where
  description : Option String
  suggested_category : String
  confidence : ℚ
deriving DecidableEq

/-- `main.py` lines 64-82: the heuristic branch of the `/predict/category`
handler (taken when `categorizer_model is None`).  `tx.description.lower()`
on a `None` description raises `AttributeError`, embedded as `Except.error`;
the loop processes transactions in order, so the first `None` aborts. -/
def predict_category_heuristic : List Transaction → Except String (List CategoryResult)
  | [] => .ok []
  | tx :: rest =>
    match tx.description with
    | none => .error "AttributeError"
    | some d =>
      match predict_category_heuristic rest with
      | .error e => .error e
      | .ok rs => .ok (⟨some d, heuristicCategory d, 2/5⟩ :: rs)

/-- One element of the `insights` list built by `predict_insights`.
`category` and `severity` are absent from the `"info"` dictionary. -/
structure Insight where
  type : String
  category : Option String
  severity : Option String
  message : String
  action : String
deriving DecidableEq

/-- `main.py` lines 162-168: the anomaly insight for a category and its
percentage of total spend (formatted with `:.1f`). -/
def anomalyInsight (cat : String) (pct : ℚ) : Insight :=
  { type := "anomaly"
    category := some cat
    severity := some "medium"
    message := "Spending in " ++ cat ++ " is unusually high (" ++ fmt1 pct ++ "% of total)."
    action := "Review individual receipts for potential overspending." }

/-- `main.py` lines 171-175: the single reassuring insight. -/
def infoInsight : Insight :=
  { type := "info"
    category := none
    severity := none
    message := "Your spending patterns are healthy and stable."
    action := "Maintain your current budget oversight." }

/-- Lexicographic code-point comparison of character lists (Python string
`<`, the order pandas sorts group keys by). -/
def charListLt : List Char → List Char → Bool
  | _, [] => false
  | [], _ :: _ => true
  | a :: as, b :: bs =>
    if a.toNat < b.toNat then true
    else if b.toNat < a.toNat then false
    else charListLt as bs

/-- Boolean `≤` on strings derived from `charListLt`. -/
def strLeb (a b : String) : Bool := !(charListLt b.data a.data)

/-- The group keys of `df.groupby('description')`: the distinct non-null
descriptions, in ascending order (pandas sorts group keys and drops NaN). -/
def insightKeys (txs : List Transaction) : List String :=
  List.insertionSort (fun a b => strLeb a b = true)
    (txs.filterMap (·.description)).dedup

/-- The summed amount of one description group. -/
def sumFor (txs : List Transaction) (k : String) : ℚ :=
  ((txs.filter (fun t => t.description == some k)).map (·.amount)).sum

/-- `main.py` line 153: `df.groupby('description')['amount'].sum().to_dict()`. -/
def categorySpending (txs : List Transaction) : List (String × ℚ) :=
  (insightKeys txs).map (fun k => (k, sumFor txs k))

/-- `main.py` line 157: `total = sum(category_spending.values())`. -/
def totalSpending (txs : List Transaction) : ℚ :=
  ((categorySpending txs).map (·.2)).sum

/-- `main.py` lines 160-168: the `insights` list built by the `for` loop —
one anomaly insight per category whose sum strictly exceeds `total * 0.3`. -/
def anomalyList (txs : List Transaction) : List Insight :=
  ((categorySpending txs).filter
      (fun p => decide (p.2 > totalSpending txs * (3/10)))).map
    (fun p => anomalyInsight p.1 (p.2 / totalSpending txs * 100))

/-- `main.py` lines 141-177: the `/predict/insights` handler (the value of its
`insights` field; rational arithmetic raises no exception here). -/
def predict_insights (txs : List Transaction) : List Insight :=
  if txs.isEmpty then []
  else if (anomalyList txs).isEmpty then [infoInsight]
  else anomalyList txs

/-! ## Concrete instances used by the closed theorems and witnesses -/

/-- A concrete delegated-model oracle: every date predicts `(100, 80, 120)`. -/
def constFp : FitPredict := fun _ _ _ => (100, 80, 120)

/-- A two-row history on consecutive days. -/
def histEx : List HistRow := [⟨0, 5⟩, ⟨1, 7⟩]

/-- The transaction form of `histEx`. -/
def txsEx : List Transaction := [⟨some "a", 5, 0, none⟩, ⟨some "b", 7, 1, none⟩]

/-- What `forecast constFp histEx 2` returns. -/
def resEx : ForecastResult :=
  ⟨[⟨2, 100, 80, 120⟩, ⟨3, 100, 80, 120⟩], 0, "weekly"⟩

/-- A forecast request whose income history is a single row: too little
history for the seasonal model to fit. -/
def reqInsufficient : ForecastRequest :=
  ⟨"biz-1", [⟨some "sale", 100, 0, none⟩], [], 30⟩

/-- The expense history of the spec's worked insight example:
rent 500, marketing 100, stock 100. -/
def insightsEx : List Transaction :=
  [⟨some "rent", 500, 0, none⟩, ⟨some "marketing", 100, 0, none⟩,
   ⟨some "stock", 100, 0, none⟩]

/-- A single-transaction categorization request. -/
def catEx : List Transaction := [⟨some "Paid office space rent", 10, 0, none⟩]

/-! ## Helper lemmas -/

theorem filterMapComm {α β : Type} (f : α → β) (p : β → Bool) (l : List α) :
    (l.map f).filter p = (l.filter (fun a => p (f a))).map f := by
  induction l with
  | nil => rfl
  | cons h t ih => by_cases hp : p (f h) <;> simp [hp, ih]

theorem filter_eq_singleton_of_nodup {α : Type} (c : α → Bool) (l : List α)
    (hnd : l.Nodup) (k : α) (hk : k ∈ l) (hck : c k = true)
    (hall : ∀ x ∈ l, c x = true → x = k) : l.filter c = [k] := by
  induction l with
  | nil => cases hk
  | cons h t ih =>
    rcases List.nodup_cons.mp hnd with ⟨hht, hndt⟩
    rcases List.mem_cons.mp hk with hk1 | hk2
    · subst hk1
      rw [List.filter_cons_of_pos hck]
      have ht : t.filter c = [] := by
        refine List.filter_eq_nil_iff.mpr ?_
        intro x hx hcx
        exact hht ((hall x (List.mem_cons_of_mem _ hx) hcx) ▸ hx)
      rw [ht]
    · have hch : c h = false := by
        by_contra hc
        have hhk : h = k := hall h (List.mem_cons_self _ _) (by simpa using hc)
        exact hht (hhk ▸ hk2)
      rw [List.filter_cons_of_neg (by simp [hch])]
      exact ih hndt hk2 (fun x hx hcx => hall x (List.mem_cons_of_mem _ hx) hcx)

theorem insightKeys_nodup (txs : List Transaction) : (insightKeys txs).Nodup :=
  ((List.perm_insertionSort _ _).nodup_iff).mpr (List.nodup_dedup _)

theorem categorySpending_nodup (txs : List Transaction) :
    (categorySpending txs).Nodup :=
  (insightKeys_nodup txs).map (fun _ _ h => congrArg Prod.fst h)

theorem categorySpending_snd {txs : List Transaction} {p : String × ℚ}
    (h : p ∈ categorySpending txs) : p.2 = sumFor txs p.1 := by
  rcases List.mem_map.mp h with ⟨x, hx, hxe⟩
  subst hxe
  rfl

/-! ## Claim theorems -/

attribute [local semireducible] Rat.add Rat.sub Rat.mul Rat.inv

/-- Claim C5: the trend computation returns
`((last - first) / (first + 1e-6)) * 100` rounded to two decimal places;
`compute(100, 150)` equals `50.0`, and `compute(0, 10)` is the large finite
number `1e9` — the epsilon keeps the denominator nonzero, so there is no
division-by-zero error. -/
theorem claim_C5_trend_formula :
    (∀ f l : ℚ, trendCalc f l = round2 (((l - f) / (f + 1/1000000)) * 100)) ∧
    trendCalc 100 150 = 50 ∧
    trendCalc 0 10 = 1000000000 ∧
    (1000000 : ℚ) < 1000000000 ∧
    ((0 : ℚ) + 1/1000000 ≠ 0) :=
  ⟨fun _ _ => rfl, by decide, by decide, by norm_num, by norm_num⟩

/-- Claim C7: for an empty history the stream result is
`predictions = []`, `trend_percentage = 0.0`, `seasonality_mode = "none"`;
this result is never the fallback generator's output, and a request with two
empty histories succeeds with that shape. -/
theorem claim_C7_empty_history (fp : FitPredict) (days : ℕ) (bid : String) :
    streamResult fp [] days = .ok ⟨[], 0, "none"⟩ ∧
    (∀ now d, streamResult fp [] days ≠ .ok (generate_fallback_forecast now d)) ∧
    predict_forecast fp ⟨bid, [], [], days⟩ =
      .success bid [] 0 [] 0 "none" "Advanced forecast generated successfully" := by
  refine ⟨rfl, ?_, rfl⟩
  intro now d h
  simp only [streamResult, List.isEmpty_nil, if_true, Except.ok.injEq] at h
  have := congrArg ForecastResult.seasonality_mode h
  simp [generate_fallback_forecast] at this

/-- Claim C8: the fallback generator produces exactly `days` rows whose dates
are the `days` consecutive days after generation time, all with point
estimate 1000, lower bound 800, upper bound 1200; trend is 0.0 and
seasonality mode is `"fallback"`.  (Determinism is immediate: the embedding
is a pure function of the generation day and the horizon, and these conjuncts
fix every field of its output.) -/
theorem claim_C8_fallback_shape (now : Int) (days : ℕ) :
    (generate_fallback_forecast now days).predictions.length = days ∧
    (∀ i : ℕ, i < days →
      ((generate_fallback_forecast now days).predictions.getD i default).ds
        = now + (i : Int) + 1) ∧
    (∀ p ∈ (generate_fallback_forecast now days).predictions,
      p.yhat = 1000 ∧ p.yhat_lower = 800 ∧ p.yhat_upper = 1200) ∧
    (generate_fallback_forecast now days).trend_percentage = 0 ∧
    (generate_fallback_forecast now days).seasonality_mode = "fallback" := by
  refine ⟨?_, ?_, ?_, rfl, rfl⟩
  · show ((List.range days).map
        (fun (j : ℕ) => (⟨now + (j : Int) + 1, 1000, 800, 1200⟩ : ForecastRow))).length = days
    rw [List.length_map, List.length_range]
  · intro i hi
    show (((List.range days).map
        (fun (j : ℕ) => (⟨now + (j : Int) + 1, 1000, 800, 1200⟩ : ForecastRow))).getD i default).ds
      = now + (i : Int) + 1
    rw [List.getD_eq_getElem?_getD, List.getElem?_map, List.getElem?_range hi]
    rfl
  · intro p hp
    simp only [generate_fallback_forecast, List.mem_map, List.mem_range] at hp
    rcases hp with ⟨i, _, rfl⟩
    exact ⟨rfl, rfl, rfl⟩

/-- Helper: on a request whose descriptions are all present, the heuristic
branch returns one result per transaction, in order, with confidence `0.4`. -/
theorem predict_category_heuristic_ok (txs : List Transaction)
    (h : ∀ tx ∈ txs, tx.description ≠ none) :
    predict_category_heuristic txs =
      .ok (txs.map (fun tx =>
        ⟨tx.description, heuristicCategory (tx.description.getD ""), 2/5⟩)) := by
  induction txs with
  | nil => rfl
  | cons hd tl ih =>
    have hd1 : hd.description ≠ none := h hd (List.mem_cons_self _ _)
    cases hdd : hd.description with
    | none => exact absurd hdd hd1
    | some d =>
      have htl := ih (fun tx htx => h tx (List.mem_cons_of_mem _ htx))
      simp [predict_category_heuristic, hdd, htl]

/-- Claim C6: with no classifier loaded, categorization applies the keyword
rules in the fixed order rent, salaries, stock, transport, utilities,
marketing as case-insensitive substring matches, first match wins, `"other"`
otherwise, confidence always `0.4` (= 2/5), one in-order result per input;
`"Paid office space rent"` resolves to `"rent"` and
`"Uber for business meeting"` to `"transport"`. -/
theorem claim_C6_heuristic_rules (txs : List Transaction)
    (h : ∀ tx ∈ txs, tx.description ≠ none) :
    predict_category_heuristic txs =
      .ok (txs.map (fun tx =>
        ⟨tx.description, heuristicCategory (tx.description.getD ""), 2/5⟩)) ∧
    (∀ d, heuristicCategory d = firstMatchCategory keywordRules d) ∧
    heuristicCategory "Paid office space rent" = "rent" ∧
    heuristicCategory "Uber for business meeting" = "transport" ∧
    heuristicCategory "zzz qqq" = "other" :=
  ⟨predict_category_heuristic_ok txs h, fun _ => rfl, by decide, by decide, by decide⟩

/-- Claim C6 witness at a concrete one-element request. -/
theorem claim_C6_heuristic_rules_witness :
    predict_category_heuristic catEx =
      .ok [⟨some "Paid office space rent", "rent", 2/5⟩] := by
  have h := claim_C6_heuristic_rules catEx (by decide)
  rw [h.1]
  rw [show catEx.map (fun tx =>
      (⟨tx.description, heuristicCategory (tx.description.getD ""), 2/5⟩ : CategoryResult)) =
    [⟨some "Paid office space rent", heuristicCategory "Paid office space rent", 2/5⟩] from rfl]
  rw [h.2.2.1]

/-- Claim C10: with no classifier loaded, categorization is total exactly on
requests whose transactions all carry a description; a `None` description
reaches `tx.description.lower()` and raises instead of returning results. -/
theorem claim_C10_none_description_raises (txs : List Transaction) :
    ((∃ tx ∈ txs, tx.description = none) →
      predict_category_heuristic txs = .error "AttributeError") ∧
    ((∀ tx ∈ txs, tx.description ≠ none) →
      ∃ rs, predict_category_heuristic txs = .ok rs) := by
  constructor
  · induction txs with
    | nil => rintro ⟨tx, htx, -⟩; cases htx
    | cons hd tl ih =>
      rintro ⟨tx, htx, hnone⟩
      rcases List.mem_cons.mp htx with h1 | h2
      · subst h1
        simp [predict_category_heuristic, hnone]
      · cases hdd : hd.description with
        | none => simp [predict_category_heuristic, hdd]
        | some d =>
          have hrec := ih ⟨tx, h2, hnone⟩
          simp [predict_category_heuristic, hdd, hrec]
  · intro h
    exact ⟨_, predict_category_heuristic_ok txs h⟩

/-- Claim C10 witness: a request with a missing description raises, one with
all descriptions present succeeds. -/
theorem claim_C10_none_description_raises_witness :
    predict_category_heuristic [⟨none, 5, 0, none⟩] = .error "AttributeError" ∧
    (∃ rs, predict_category_heuristic catEx = .ok rs) :=
  ⟨(claim_C10_none_description_raises [⟨none, 5, 0, none⟩]).1
      ⟨⟨none, 5, 0, none⟩, List.mem_cons_self _ _, rfl⟩,
   (claim_C10_none_description_raises catEx).2 (by decide)⟩

/-- Helper: `forecast` with its local bindings inlined. -/
theorem forecast_eq (fp : FitPredict) (hist : List HistRow) (days : ℕ) :
    forecast fp hist days =
      if hist.length < 2 then .error .insufficientData
      else if hist.length < (combinedForecast fp hist days).length then
        .ok { predictions :=
                (combinedForecast fp hist days).drop
                  ((combinedForecast fp hist days).length - days)
              trend_percentage :=
                trendCalc
                  ((combinedForecast fp hist days).getD hist.length default).yhat
                  ((combinedForecast fp hist days).getLastD default).yhat
              seasonality_mode :=
                if (seasonalityConfig hist).yearly_seasonality then "yearly"
                else "weekly" }
      else .error .indexError := rfl

/-- Claim C3: whenever a forecast is attempted on a non-empty series, weekly
seasonality is on, daily is off, yearly is on iff the date span exceeds 365
days, and the returned `seasonality_mode` is `"yearly"` exactly when yearly
was enabled and `"weekly"` otherwise; a single-point series has span 0. -/
theorem claim_C3_seasonality (fp : FitPredict) (hist : List HistRow) (days : ℕ)
    (hne : hist ≠ []) :
    (seasonalityConfig hist).weekly_seasonality = true ∧
    (seasonalityConfig hist).daily_seasonality = false ∧
    ((seasonalityConfig hist).yearly_seasonality = true ↔ dataSpanDays hist > 365) ∧
    (∀ r, forecast fp hist days = .ok r →
      ((r.seasonality_mode = "yearly" ↔ dataSpanDays hist > 365) ∧
       (r.seasonality_mode = "weekly" ↔ ¬dataSpanDays hist > 365))) ∧
    (∀ p : HistRow, dataSpanDays [p] = 0) := by
  refine ⟨rfl, rfl, by simp [seasonalityConfig], ?_, ?_⟩
  · intro r hr
    rw [forecast_eq] at hr
    by_cases h2 : hist.length < 2
    · rw [if_pos h2] at hr; cases hr
    · rw [if_neg h2] at hr
      by_cases h3 : hist.length < (combinedForecast fp hist days).length
      · rw [if_pos h3, Except.ok.injEq] at hr
        subst hr
        by_cases hy : dataSpanDays hist > 365 <;>
          simp [seasonalityConfig, hy]
      · rw [if_neg h3] at hr; cases hr
  · intro p
    simp [dataSpanDays, dsMax, dsMin]

/-- Claim C4: when fitting succeeds on a non-empty history, the returned
predictions are exactly the final `days` rows of the delegated model's
combined history-plus-future output (hence exactly `days` of them), and the
trend is computed from that combined output's row at index `len(history)`
against its last row — never from raw input values. -/
theorem claim_C4_slice_and_trend (fp : FitPredict) (hist : List HistRow)
    (days : ℕ) (r : ForecastResult)
    (hok : forecast fp hist days = .ok r) :
    (combinedForecast fp hist days).length = hist.length + days ∧
    r.predictions = (combinedForecast fp hist days).drop hist.length ∧
    r.predictions.length = days ∧
    r.trend_percentage =
      trendCalc ((combinedForecast fp hist days).getD hist.length default).yhat
        ((combinedForecast fp hist days).getLastD default).yhat := by
  have hlen : (combinedForecast fp hist days).length = hist.length + days := by
    simp [combinedForecast, makeFuture]
  rw [forecast_eq] at hok
  by_cases h2 : hist.length < 2
  · rw [if_pos h2] at hok; cases hok
  · rw [if_neg h2] at hok
    by_cases h3 : hist.length < (combinedForecast fp hist days).length
    · rw [if_pos h3, Except.ok.injEq] at hok
      subst hok
      refine ⟨hlen, ?_, ?_, rfl⟩
      · rw [hlen, Nat.add_sub_cancel]
      · rw [List.length_drop, hlen, Nat.add_sub_cancel]
        omega
    · rw [if_neg h3] at hok; cases hok

/-- Claim C3 witness at a concrete two-row history. -/
theorem claim_C3_seasonality_witness :
    (seasonalityConfig histEx).weekly_seasonality = true ∧
    (seasonalityConfig histEx).daily_seasonality = false ∧
    resEx.seasonality_mode = "weekly" := by
  have h := claim_C3_seasonality constFp histEx 2 (by decide)
  exact ⟨h.1, h.2.1, ((h.2.2.2.1 resEx (by rfl)).2).mpr (by decide)⟩

/-- Claim C4 witness at a concrete two-row history and horizon 2. -/
theorem claim_C4_slice_and_trend_witness :
    forecast constFp histEx 2 = .ok resEx ∧
    resEx.predictions = (combinedForecast constFp histEx 2).drop histEx.length ∧
    resEx.predictions.length = 2 := by
  have hok : forecast constFp histEx 2 = .ok resEx := by rfl
  exact ⟨hok, (claim_C4_slice_and_trend constFp histEx 2 resEx hok).2.1,
    (claim_C4_slice_and_trend constFp histEx 2 resEx hok).2.2.1⟩

/-- Helper: every successful stream result carries seasonality mode
`"none"`, `"weekly"` or `"yearly"` — never `"fallback"`. -/
theorem streamResult_mode (fp : FitPredict) (ts : List Transaction) (days : ℕ)
    (r : ForecastResult) (h : streamResult fp ts days = .ok r) :
    r.seasonality_mode = "none" ∨ r.seasonality_mode = "weekly" ∨
      r.seasonality_mode = "yearly" := by
  rw [streamResult] at h
  split at h
  · rw [Except.ok.injEq] at h
    subst h
    left; rfl
  · rw [forecast_eq] at h
    by_cases h2 : (toHistRows ts).length < 2
    · rw [if_pos h2] at h; cases h
    · rw [if_neg h2] at h
      by_cases h3 : (toHistRows ts).length <
          (combinedForecast fp (toHistRows ts) days).length
      · rw [if_pos h3, Except.ok.injEq] at h
        subst h
        by_cases hy : (seasonalityConfig (toHistRows ts)).yearly_seasonality <;>
          simp [hy]
      · rw [if_neg h3] at h; cases h

/-- Claim C9: the response's single `seasonality` field is taken solely from
the income stream's result (the expense stream's mode is discarded); with an
empty income history and a successfully forecast expense history the response
reports `"none"` while carrying the real expense forecast. -/
theorem claim_C9_seasonality_from_income (fp : FitPredict)
    (req : ForecastRequest) (ir er : ForecastResult)
    (hi : streamResult fp req.income_history req.days = .ok ir)
    (he : streamResult fp req.expense_history req.days = .ok er) :
    predict_forecast fp req =
      .success req.business_id ir.predictions ir.trend_percentage
        er.predictions er.trend_percentage ir.seasonality_mode
        "Advanced forecast generated successfully" ∧
    (∀ bid ts d2 er2, streamResult fp ts d2 = .ok er2 →
      predict_forecast fp ⟨bid, [], ts, d2⟩ =
        .success bid [] 0 er2.predictions er2.trend_percentage "none"
          "Advanced forecast generated successfully") := by
  constructor
  · rw [predict_forecast, hi, he]
  · intro bid ts d2 er2 h2
    rw [predict_forecast]
    rw [show streamResult fp ([] : List Transaction) d2 = .ok ⟨[], 0, "none"⟩ from rfl]
    rw [show (⟨bid, [], ts, d2⟩ : ForecastRequest).expense_history = ts from rfl]
    rw [show (⟨bid, [], ts, d2⟩ : ForecastRequest).days = d2 from rfl]
    rw [h2]

/-- Claim C9 witness: empty income, two-row expense history. -/
theorem claim_C9_seasonality_from_income_witness :
    predict_forecast constFp ⟨"b1", [], txsEx, 2⟩ =
      .success "b1" [] 0 resEx.predictions resEx.trend_percentage "none"
        "Advanced forecast generated successfully" :=
  (claim_C9_seasonality_from_income constFp ⟨"b1", [], txsEx, 2⟩
    ⟨[], 0, "none"⟩ resEx (by rfl) (by rfl)).1

/-- Claim C1 (code-bug record): on a one-row income history — too little to
fit — the handler returns the error-shaped payload, and no reachable response
of the handler ever carries the fallback generator's `"fallback"` seasonality
mode: `_generate_fallback_forecast` is dead code. -/
theorem claim_C1_insufficient_data_is_error_payload :
    predict_forecast constFp reqInsufficient =
      .failure "Dataframe has less than 2 non-NaN rows."
        "Failed to generate forecast" ∧
    ∀ (fp : FitPredict) (req : ForecastRequest) bid ifc it efc et msg,
      predict_forecast fp req ≠ .success bid ifc it efc et "fallback" msg := by
  refine ⟨rfl, ?_⟩
  intro fp req bid ifc it efc et msg h
  rw [predict_forecast] at h
  cases hi : streamResult fp req.income_history req.days with
  | error e => rw [hi] at h; cases h
  | ok ir =>
    rw [hi] at h
    cases he : streamResult fp req.expense_history req.days with
    | error e => rw [he] at h; cases h
    | ok er =>
      rw [he] at h
      rw [ForecastResponse.success.injEq] at h
      have hmode := streamResult_mode fp req.income_history req.days ir hi
      rcases hmode with hm | hm | hm <;>
      · rw [hm] at h
        exact absurd h.2.2.2.2.2.1 (by decide)

/-- Helper: `predict_insights` on a non-empty history with a non-empty
anomaly list returns exactly the anomaly list. -/
theorem predict_insights_eq_anomalies (txs : List Transaction) (hne : txs ≠ [])
    (h : anomalyList txs ≠ []) : predict_insights txs = anomalyList txs := by
  have hemp : txs.isEmpty = false := by
    cases txs with
    | nil => exact absurd rfl hne
    | cons hd tl => rfl
  rw [predict_insights, if_neg (by rw [hemp]; exact Bool.false_ne_true),
    if_neg (fun hab => h (List.isEmpty_iff.mp hab))]

/-- Claim C2: for every non-empty expense history, each category whose summed
amount strictly exceeds 30% of the total yields exactly one `"anomaly"`
insight with severity `"medium"` and a message carrying the category's
percentage of total to one decimal place; if no category qualifies the
result is exactly `[infoInsight]`; the insight list is never empty. -/
theorem claim_C2_insights (txs : List Transaction) (hne : txs ≠ []) :
    (∀ k a, (k, a) ∈ categorySpending txs →
      a > totalSpending txs * (3/10) →
      (predict_insights txs).filter
          (fun i => i.type == "anomaly" && i.category == some k) =
        [anomalyInsight k (a / totalSpending txs * 100)]) ∧
    ((∀ p ∈ categorySpending txs, ¬ p.2 > totalSpending txs * (3/10)) →
      predict_insights txs = [infoInsight]) ∧
    predict_insights txs ≠ [] := by
  have hemp : txs.isEmpty = false := by
    cases txs with
    | nil => exact absurd rfl hne
    | cons hd tl => rfl
  refine ⟨?_, ?_, ?_⟩
  · intro k a hmem hgt
    obtain ⟨x, hx, hxe⟩ := List.mem_map.mp hmem
    injection hxe with hk ha
    subst hk
    subst ha
    have hc : decide ((x, sumFor txs x).2 > totalSpending txs * (3/10)) = true :=
      decide_eq_true hgt
    have hmemf : (x, sumFor txs x) ∈
        (categorySpending txs).filter
          (fun p => decide (p.2 > totalSpending txs * (3/10))) :=
      List.mem_filter.mpr ⟨hmem, hc⟩
    have hanil : anomalyList txs ≠ [] := by
      rw [anomalyList]
      exact List.ne_nil_of_mem (List.mem_map_of_mem _ hmemf)
    rw [predict_insights_eq_anomalies txs hne hanil, anomalyList, filterMapComm]
    have hsing : ((categorySpending txs).filter
          (fun p => decide (p.2 > totalSpending txs * (3/10)))).filter
        (fun p =>
          (anomalyInsight p.1 (p.2 / totalSpending txs * 100)).type == "anomaly" &&
          (anomalyInsight p.1 (p.2 / totalSpending txs * 100)).category == some x) =
        [(x, sumFor txs x)] := by
      refine filter_eq_singleton_of_nodup _ _
        ((categorySpending_nodup txs).filter _) _ hmemf (by simp [anomalyInsight]) ?_
      intro p hp hcp
      have hpcs : p ∈ categorySpending txs := List.mem_of_mem_filter hp
      have hsnd : p.2 = sumFor txs p.1 := categorySpending_snd hpcs
      have h1 : p.1 = x := by
        have h2 := (Bool.and_eq_true _ _).mp hcp |>.2
        simpa [anomalyInsight] using h2
      obtain ⟨p1, p2⟩ := p
      dsimp at h1 hsnd
      subst h1
      subst hsnd
      rfl
    rw [hsing]
    rfl
  · intro hnone
    have hfil : (categorySpending txs).filter
        (fun p => decide (p.2 > totalSpending txs * (3/10))) = [] :=
      List.filter_eq_nil_iff.mpr (fun p hp => by simpa using hnone p hp)
    rw [predict_insights, if_neg (by rw [hemp]; exact Bool.false_ne_true),
      if_pos (by rw [anomalyList, hfil]; rfl)]
  · rw [predict_insights, if_neg (by rw [hemp]; exact Bool.false_ne_true)]
    by_cases hB : (anomalyList txs).isEmpty = true
    · rw [if_pos hB]
      simp
    · rw [if_neg hB]
      intro hnil
      exact hB (by rw [hnil]; rfl)

/-- Claim C2 witness: the spec's worked example — rent 500 of total 700
(≈71.4%) yields exactly one anomaly insight for `"rent"`. -/
theorem claim_C2_insights_witness :
    insightsEx ≠ [] ∧
    ("rent", (500 : ℚ)) ∈ categorySpending insightsEx ∧
    (500 : ℚ) > totalSpending insightsEx * (3/10) ∧
    (predict_insights insightsEx).filter
        (fun i => i.type == "anomaly" && i.category == some "rent") =
      [anomalyInsight "rent" ((500 : ℚ) / totalSpending insightsEx * 100)] := by
  refine ⟨by decide, by decide, by decide, ?_⟩
  exact (claim_C2_insights insightsEx (by decide)).1 "rent" 500 (by decide) (by decide)
